import Mathlib

/-!
Verification development for the klinecharts-pro datafeed adapters.

The repository contains four datafeed adapters sharing the `Datafeed`
contract: `DefaultDatafeed` (Massive.com), `OKXDataFeeds`, `LocalDataFeeds`
(local Python backend) and `CCXTDataFeeds` (ccxt library).  This file embeds
the period/symbol normalisation functions, the historical-fetch
post-processing, the polling delivery guard and the subscribe/unsubscribe
state machines of those adapters, and proves (or refutes) the spec claims
about them.

Conventions of the embedding:
* JavaScript strings are embedded as `String` where only equality matters
  (channel keys, units) and as `List Char` where character-level operations
  (`includes`, `split`, `replace`) are performed.
* JavaScript numbers are embedded as `Nat`/`Int`; the adapters only compare
  and copy the numeric OHLCV fields, so no floating-point reasoning is
  needed for the claims at hand.  JS truthiness on a `number | undefined`
  field is embedded explicitly: `undefined` ↦ `none`, and the value `0` is
  falsy.
* `async` functions that settle with either a value or a rejection are
  embedded as functions into `Except String α`; the HTTP layer is an
  explicit input (`ok` flag plus an optional parsed body, `none` standing
  for a body that fails to parse).
* The event-loop interleavings of `LocalDataFeeds` (WebSocket `onopen` /
  `onclose` handlers and the deferred-close `setTimeout`) are embedded as a
  world with a pending-event multiset; a scheduler picks any pending event,
  and message delivery on any open socket may happen at any time.
-/

/-- A chart period: positive multiplier plus timespan unit
(`minute`/`hour`/`day`/`week`/`month`/`year`).  The `text` field of the
source type is display-only and unused by every adapter function embedded
here, so it is omitted. -/
structure Period where
  multiplier : Nat
  timespan : String
deriving DecidableEq, Repr

/-! ## Period conversion (`_convertPeriodToTimeframe` / `_convertPeriodToBar`) -/

/-- `LocalDataFeeds._convertPeriodToTimeframe`: minute/hour/day map to
`m`/`h`/`d` suffixes, week and month are converted to days, and any other
unit falls back to the literal `"15m"`. -/
def localConvertPeriodToTimeframe (p : Period) : String :=
  if p.timespan = "minute" then toString p.multiplier ++ "m"
  else if p.timespan = "hour" then toString p.multiplier ++ "h"
  else if p.timespan = "day" then toString p.multiplier ++ "d"
  else if p.timespan = "week" then toString (p.multiplier * 7) ++ "d"
  else if p.timespan = "month" then toString (p.multiplier * 30) ++ "d"
  else "15m"

/-- `CCXTDataFeeds._convertPeriodToTimeframe`: passes the multiplier through
unchanged with the CCXT unit suffix; the `default` switch case yields
`"1m"`. -/
def ccxtConvertPeriodToTimeframe (p : Period) : String :=
  if p.timespan = "minute" then toString p.multiplier ++ "m"
  else if p.timespan = "hour" then toString p.multiplier ++ "h"
  else if p.timespan = "day" then toString p.multiplier ++ "d"
  else if p.timespan = "week" then toString p.multiplier ++ "w"
  else if p.timespan = "month" then toString p.multiplier ++ "M"
  else "1m"

/-- The `supportedPeriods` table of `OKXDataFeeds._convertPeriodToBar`; the
JS lookup `supportedPeriods[timespan] || supportedPeriods.minute` falls back
to the minute row for unknown units. -/
def okxSupported (timespan : String) : List Nat :=
  if timespan = "minute" then [1, 3, 5, 15, 30]
  else if timespan = "hour" then [1, 2, 4, 6, 12]
  else if timespan = "day" then [1]
  else if timespan = "week" then [1]
  else if timespan = "month" then [1]
  else [1, 3, 5, 15, 30]

/-- The `actualMultiplier` computation of `OKXDataFeeds._convertPeriodToBar`:
scan the supported values from largest to smallest and take the first one
`≤ multiplier` (the JS loop with `break`); if the result is still below the
smallest supported value, clamp up to it. -/
def okxActualMultiplier (multiplier : Nat) (timespan : String) : Nat :=
  let vals := okxSupported timespan
  let a := match vals.reverse.find? (fun v => decide (v ≤ multiplier)) with
    | some v => v
    | none => multiplier
  match vals with
  | [] => a
  | v0 :: _ => if a < v0 then v0 else a

/-- `OKXDataFeeds._convertPeriodToBar`: the OKX bar string built from the
rounded multiplier; the `default` switch case yields `"1m"`. -/
def okxConvertPeriodToBar (p : Period) : String :=
  let a := okxActualMultiplier p.multiplier p.timespan
  if p.timespan = "minute" then toString a ++ "m"
  else if p.timespan = "hour" then toString a ++ "H"
  else if p.timespan = "day" then toString a ++ "D"
  else if p.timespan = "week" then toString a ++ "W"
  else if p.timespan = "month" then toString a ++ "M"
  else "1m"

/-! ## Historical fetch post-processing -/

/-- A chart bar (`KLineData`): timestamp in epoch milliseconds plus OHLCV
and turnover. -/
structure Bar where
  timestamp : Int
  o : Int
  h : Int
  l : Int
  c : Int
  volume : Int
  turnover : Int
deriving DecidableEq, Repr

/-- A raw CCXT OHLCV candle `[timestamp, open, high, low, close, volume]`. -/
structure CcxtCandle where
  ts : Int
  o : Int
  h : Int
  l : Int
  c : Int
  v : Int
deriving DecidableEq, Repr

/-- The post-processing of `CCXTDataFeeds.getHistoryKLineData`: keep only
candles with `from ≤ timestamp ≤ to`, then map to `KLineData`, estimating
`turnover` as `close * volume`. -/
def ccxtHistoryBars (fromMs toMs : Int) (ohlcv : List CcxtCandle) : List Bar :=
  (ohlcv.filter (fun x => decide (fromMs ≤ x.ts) && decide (x.ts ≤ toMs))).map
    (fun x => ⟨x.ts, x.o, x.h, x.l, x.c, x.v, x.c * x.v⟩)

/-- `CCXTDataFeeds.getHistoryKLineData` error propagation: the `catch`
block rethrows, so a failed `fetchOHLCV` call surfaces as a rejection;
a successful fetch goes through `ccxtHistoryBars`.  `fromMs`/`toMs` also
feed the `since` request parameter, which is part of the request, not of
the post-processing. -/
def ccxtGetHistoryKLineData (fromMs toMs : Int)
    (fetched : Except String (List CcxtCandle)) : Except String (List Bar) :=
  match fetched with
  | Except.error e => Except.error e
  | Except.ok l => Except.ok (ccxtHistoryBars fromMs toMs l)

/-- A raw OKX candle row
`["ts","open","high","low","close","vol","volCcy",...]`, already parsed to
numbers (the adapter applies `parseInt`/`parseFloat` fieldwise). -/
structure OkxCandle where
  ts : Int
  o : Int
  h : Int
  l : Int
  c : Int
  vol : Int
  volCcy : Int
deriving DecidableEq, Repr

/-- One OKX candle mapped to `KLineData`; `parseFloat(candle[6]) || vol*close`
falls back to `vol * close` when `volCcy` is falsy (zero). -/
def okxToBar (x : OkxCandle) : Bar :=
  ⟨x.ts, x.o, x.h, x.l, x.c, x.vol, if x.volCcy = 0 then x.vol * x.c else x.volCcy⟩

/-- The post-processing of `OKXDataFeeds.getHistoryKLineData`: map every
row of `result.data` to a bar and `reverse` (OKX answers newest-first).
No bar is dropped: the requested range only shapes the HTTP query. -/
def okxHistoryBars (data : List OkxCandle) : List Bar :=
  (data.map okxToBar).reverse

/-- Parsed body of an OKX REST reply: the `code` field and the `data` rows
(`result.data || []` makes a missing `data` an empty list). -/
structure OkxBody where
  code : String
  data : List OkxCandle
deriving DecidableEq, Repr

/-- An OKX HTTP outcome: `ok` is `response.ok`; `body = none` stands for a
body on which `response.json()` rejects. -/
structure OkxResp where
  ok : Bool
  body : Option OkxBody
deriving DecidableEq, Repr

/-- `OKXDataFeeds.getHistoryKLineData`: non-2xx responses and malformed
bodies throw (and the `catch` block rethrows); an API-level error code
(`code ≠ "0"`) also throws; otherwise the rows are mapped and reversed.
`fromMs`/`toMs` become the `after`/`before` query parameters and are not
re-checked against the returned rows. -/
def okxGetHistoryKLineData (fromMs toMs : Int) (resp : OkxResp) :
    Except String (List Bar) :=
  if resp.ok = false then Except.error "request failed"
  else match resp.body with
    | none => Except.error "parse failed"
    | some b =>
      if b.code ≠ "0" then Except.error "api error"
      else Except.ok (okxHistoryBars b.data)

/-- A raw Massive.com aggregate: optional start timestamp `s`, timestamp
`t`, OHLCV and optional `vw`. -/
structure MassiveAgg where
  s : Option Int
  t : Int
  o : Int
  h : Int
  l : Int
  c : Int
  v : Int
  vw : Option Int
deriving DecidableEq, Repr

/-- `data.s || data.t`: the start timestamp when present and truthy,
otherwise `t`. -/
def massiveTimestamp (a : MassiveAgg) : Int :=
  match a.s with
  | some x => if x = 0 then a.t else x
  | none => a.t

/-- One Massive.com aggregate mapped to `KLineData`;
`data.vw || data.c * data.v` estimates turnover when `vw` is falsy. -/
def defaultToBar (a : MassiveAgg) : Bar :=
  ⟨massiveTimestamp a, a.o, a.h, a.l, a.c, a.v,
    match a.vw with
    | some x => if x = 0 then a.c * a.v else x
    | none => a.c * a.v⟩

/-- Parsed body of a Massive.com reply (`result.results || []`). -/
structure DefaultBody where
  results : Option (List MassiveAgg)
deriving DecidableEq, Repr

/-- A Massive.com HTTP outcome, as for `OkxResp`. -/
structure DefaultResp where
  ok : Bool
  body : Option DefaultBody
deriving DecidableEq, Repr

/-- `DefaultDatafeed.getHistoryKLineData`: non-2xx responses and malformed
bodies throw and are rethrown by the `catch` block; otherwise the
aggregates are mapped in upstream order with no range filtering. -/
def defaultGetHistoryKLineData (resp : DefaultResp) : Except String (List Bar) :=
  if resp.ok = false then Except.error "request failed"
  else match resp.body with
    | none => Except.error "parse failed"
    | some b => Except.ok ((b.results.getD []).map defaultToBar)

/-- Parsed body of a LocalDataFeeds reply: the bar list itself. -/
structure LocalResp where
  ok : Bool
  body : Option (List Bar)
deriving DecidableEq, Repr

/-- `LocalDataFeeds.getHistoryKLineData`: the whole body runs inside
`try { ... } catch { return [] }`, so a non-2xx response (which throws
inside the `try`) and a malformed body both settle successfully with the
empty list; the promise never rejects. -/
def localGetHistoryKLineData (resp : LocalResp) : Except String (List Bar) :=
  if resp.ok = false then Except.ok []
  else match resp.body with
    | none => Except.ok []
    | some ks => Except.ok ks

/-- Whether an `Except` is a rejection. -/
def isErr {ε α : Type} : Except ε α → Bool
  | Except.error _ => true
  | Except.ok _ => false

/-! ## Polling delivery (`CCXTDataFeeds._subscribePolling`) -/

/-- The delivery guard `!this._lastTimestamp || timestamp > this._lastTimestamp`
of `fetchLatest`.  JS truthiness makes a stored timestamp of `0` count as
"nothing delivered yet". -/
def pollDeliverGuard (last : Option Nat) (ts : Nat) : Bool :=
  match last with
  | none => true
  | some v => decide (v = 0) || decide (v < ts)

/-- One polling tick: `fetched` is the (timestamp of the) single most
recent candle returned by `fetchOHLCV`, or `none` for an empty/failed
fetch.  Returns the new `_lastTimestamp` and the timestamps delivered to
the callback on this tick. -/
def pollStepFn (last : Option Nat) (fetched : Option Nat) :
    Option Nat × List Nat :=
  match fetched with
  | none => (last, [])
  | some ts => if pollDeliverGuard last ts then (some ts, [ts]) else (last, [])

/-- Run a sequence of polling ticks from a given `_lastTimestamp`,
collecting every timestamp delivered to the callback. -/
def pollRunAux (last : Option Nat) : List (Option Nat) → List Nat
  | [] => []
  | f :: rest =>
    ((pollStepFn last f).2) ++ pollRunAux (pollStepFn last f).1 rest

/-- Deliveries over one polling subscription's lifetime
(`_lastTimestamp` starts out `undefined`). -/
def pollRun (ticks : List (Option Nat)) : List Nat :=
  pollRunAux none ticks

/-! ## Ticker conversion (`_convertTickerFormat` / `_convertTickerToSymbol`)

JS strings are embedded as `List Char` here because these functions use
`includes`, anchored `replace` and `split`. -/

/-- `String.prototype.includes` for a single character. -/
def hasChar (t : List Char) (c : Char) : Bool :=
  match t with
  | [] => false
  | a :: rest => a == c || hasChar rest c

/-- The separator `"USD"` used by `split('USD')` and the `/USD$/` regex. -/
def usdSep : List Char := ['U', 'S', 'D']

/-- The suffix `"USDT"` of the `/USDT$/` regex. -/
def usdtSep : List Char := ['U', 'S', 'D', 'T']

/-- `ticker.replace(/^X\./, '')`: strip one leading `"X."`. -/
def stripXDot (t : List Char) : List Char :=
  match t with
  | 'X' :: '.' :: rest => rest
  | _ => t

/-- `String.prototype.split` with separator `"USD"`: non-overlapping
occurrences scanned left to right. -/
def splitOnUSD : List Char → List (List Char)
  | [] => [[]]
  | c :: rest =>
    if usdSep.isPrefixOf (c :: rest) then
      [] :: splitOnUSD (List.drop 2 rest)
    else
      match splitOnUSD rest with
      | [] => [[c]]
      | h :: t => (c :: h) :: t
termination_by l => l.length
decreasing_by
  · simp [List.length_drop]; omega
  · simp

/-- The number of non-overlapping occurrences of `"USD"`, scanned left to
right — the quantity that makes `split('USD')` yield `count + 1` parts. -/
def countUSD : List Char → Nat
  | [] => 0
  | c :: rest =>
    if usdSep.isPrefixOf (c :: rest) then countUSD (List.drop 2 rest) + 1
    else countUSD rest
termination_by l => l.length
decreasing_by
  · simp [List.length_drop]; omega
  · simp

/-- The characters before the first occurrence of `"USD"` (the whole string
when there is none) — what `split('USD')[0]` evaluates to. -/
def beforeFirstUSD : List Char → List Char
  | [] => []
  | c :: rest =>
    if usdSep.isPrefixOf (c :: rest) then [] else c :: beforeFirstUSD rest

/-- The literal `"-USD"` appended by `DefaultDatafeed`. -/
def dashUSD : List Char := ['-', 'U', 'S', 'D']

/-- `DefaultDatafeed._convertTickerFormat`: a ticker containing `'-'` is
returned unchanged; otherwise the leading `"X."` is stripped and the rest
split on `"USD"`; exactly two parts yield `parts[0] + "-USD"`, anything
else returns the original ticker. -/
def convertTickerFormat (t : List Char) : List Char :=
  if hasChar t '-' then t
  else match splitOnUSD (stripXDot t) with
    | [a, _] => a ++ dashUSD
    | _ => t

/-- `t.replace(suffixRegex, '')` for an anchored suffix: remove `suf` from
the end when present. -/
def stripSuffixList (suf t : List Char) : List Char :=
  if suf.isSuffixOf t then t.take (t.length - suf.length) else t

/-- `OKXDataFeeds._convertTickerFormat`: a ticker containing `'-'` is
returned unchanged; otherwise `"X."`, then a `"USD"` suffix, then a
`"USDT"` suffix are stripped and `-quoteCurrency` appended. -/
def okxConvertTickerFormat (t quote : List Char) : List Char :=
  if hasChar t '-' then t
  else stripSuffixList usdtSep (stripSuffixList usdSep (stripXDot t)) ++ '-' :: quote

/-- The `SymbolInfo` fields consumed by `CCXTDataFeeds._convertTickerToSymbol`. -/
structure CcxtSymbolInfo where
  ticker : List Char
  shortName : Option (List Char)
  priceCurrency : Option (List Char)
deriving DecidableEq, Repr

/-- `ticker.replace('-', '/')`: replace the first occurrence only. -/
def replaceFirst (t : List Char) (a b : Char) : List Char :=
  match t with
  | [] => []
  | c :: rest => if c = a then b :: rest else c :: replaceFirst rest a b

/-- `ticker.replace(/USD[T]?$/, '')`: remove a trailing `"USDT"`,
otherwise a trailing `"USD"`. -/
def stripUSDorUSDT (t : List Char) : List Char :=
  if usdtSep.isSuffixOf t then t.take (t.length - 4)
  else if usdSep.isSuffixOf t then t.take (t.length - 3)
  else t

/-- JS `x || dflt` on an optional string: `undefined` and the empty string
both fall back. -/
def jsStrOr (x : Option (List Char)) (dflt : List Char) : List Char :=
  match x with
  | some s => if s = [] then dflt else s
  | none => dflt

/-- `CCXTDataFeeds._convertTickerToSymbol`: a ticker containing `'/'` is
used as is; one containing `'-'` has its first `'-'` replaced by `'/'`;
otherwise `base/quote` is built from `shortName || ticker.replace(/USD[T]?$/,'')`
and `priceCurrency?.toUpperCase() || 'USDT'`. -/
def ccxtConvertTickerToSymbol (s : CcxtSymbolInfo) : List Char :=
  if hasChar s.ticker '/' then s.ticker
  else if hasChar s.ticker '-' then replaceFirst s.ticker '-' '/'
  else
    jsStrOr s.shortName (stripUSDorUSDT s.ticker) ++
      '/' :: jsStrOr (s.priceCurrency.map (List.map Char.toUpper)) usdtSep

/-! ## LocalDataFeeds subscribe/unsubscribe state machine

The adapter state (`_ws`, `_currentChannel`, `_callback`) together with the
set of WebSocket objects ever created (a socket object outlives the `_ws`
field that once referenced it — its closure handlers still run), the
pending asynchronous events (socket `onopen`/`onclose` firings and the
deferred-close `setTimeout`) and a log of the bars handed to the callback,
tagged with the channel of the socket that delivered them. -/

/-- WebSocket `readyState`. -/
inductive RS where
  | conn
  | opened
  | closing
  | closed
deriving DecidableEq, Repr

/-- One WebSocket object: the channel captured by its closure handlers and
its `readyState`. -/
structure Sock where
  channel : String
  rs : RS
deriving DecidableEq, Repr

/-- A pending asynchronous event: a socket finishing its handshake
(`onopen`), the 100 ms deferred-close timer scheduled by `subscribe`, or a
socket close completing (`onclose`). -/
inductive Ev where
  | evOpen (sid : Nat)
  | evTimeout (channel : String)
  | evClosed (sid : Nat)
deriving DecidableEq, Repr

/-- The world of one `LocalDataFeeds` instance. -/
structure LocalWorld where
  socks : List (Nat × Sock)
  nextId : Nat
  ws : Option Nat
  currentChannel : Option String
  callback : Option Nat
  pending : List Ev
  delivered : List (String × Nat)
deriving DecidableEq, Repr

/-- The socket object a given id refers to. -/
def getSock (w : LocalWorld) (sid : Nat) : Option Sock :=
  (w.socks.find? (fun p => p.1 == sid)).map (fun p => p.2)

/-- Set the `readyState` of one socket. -/
def setRS (w : LocalWorld) (sid : Nat) (r : RS) : LocalWorld :=
  { w with socks := w.socks.map (fun p => if p.1 = sid then (p.1, ⟨p.2.channel, r⟩) else p) }

/-- `ws.close()`: the socket enters `CLOSING` and its `onclose` event is
queued. -/
def closeSock (w : LocalWorld) (sid : Nat) : LocalWorld :=
  let w1 := setRS w sid RS.closing
  { w1 with pending := w1.pending ++ [Ev.evClosed sid] }

/-- The channel key `` `${symbol.ticker}_${timeframe}` `` derived in
`subscribe`/`unsubscribe`. -/
def localChannel (ticker : String) (p : Period) : String :=
  ticker ++ "_" ++ localConvertPeriodToTimeframe p

/-- `LocalDataFeeds.unsubscribe` by derived channel: only when `_ws` exists
and the derived channel matches `_currentChannel` is the socket closed
(when `OPEN` or `CONNECTING`) and the adapter state cleared; otherwise the
call is skipped. -/
def localUnsubscribeCh (ch : String) (w : LocalWorld) : LocalWorld :=
  match w.ws with
  | none => w
  | some sid =>
    if w.currentChannel = some ch then
      let w1 :=
        match getSock w sid with
        | some s => if s.rs = RS.opened ∨ s.rs = RS.conn then closeSock w sid else w
        | none => w
      { w1 with ws := none, currentChannel := none, callback := none }
    else w

/-- `LocalDataFeeds.unsubscribe(symbol, period)`. -/
def localUnsubscribe (ticker : String) (p : Period) (w : LocalWorld) : LocalWorld :=
  localUnsubscribeCh (localChannel ticker p) w

/-- `this._ws && this._ws.readyState === WebSocket.OPEN`. -/
def wsIsOpen (w : LocalWorld) : Bool :=
  match w.ws with
  | some sid =>
    match getSock w sid with
    | some s => s.rs == RS.opened
    | none => false
  | none => false

/-- `LocalDataFeeds.subscribe(symbol, period, callback)`.

* Same channel and socket `OPEN`: only `_callback` is swapped.
* Otherwise, when a socket exists: if it is `OPEN` or `CLOSING`,
  `this.unsubscribe(symbol, period)` is invoked — with the **new**
  symbol/period, so its channel-match guard compares the new channel with
  the old `_currentChannel`; if the socket is still connecting, a
  deferred-close `setTimeout` is queued instead.
* Finally the adapter fields are repointed and a fresh `CONNECTING` socket
  is created whose `onopen` will fire later. -/
def localSubscribe (ticker : String) (p : Period) (cb : Nat) (w : LocalWorld) : LocalWorld :=
  let ch := localChannel ticker p
  if w.currentChannel = some ch ∧ wsIsOpen w = true then
    { w with callback := some cb }
  else
    let w1 :=
      match w.ws with
      | none => w
      | some sid =>
        match getSock w sid with
        | none => w
        | some s =>
          if s.rs = RS.opened ∨ s.rs = RS.closing then localUnsubscribeCh ch w
          else { w with pending := w.pending ++ [Ev.evTimeout ch] }
    { w1 with
      currentChannel := some ch
      callback := some cb
      socks := w1.socks ++ [(w1.nextId, ⟨ch, RS.conn⟩)]
      ws := some w1.nextId
      nextId := w1.nextId + 1
      pending := w1.pending ++ [Ev.evOpen w1.nextId] }

/-- Process one pending event.

* `evOpen sid`: a `CONNECTING` socket becomes `OPEN` and its `onopen`
  handler runs: when `_currentChannel` no longer equals the socket's
  captured channel the handler closes the socket again.
* `evTimeout ch`: the deferred close re-checks the channel and calls
  `unsubscribe` (whose own guard then compares channels again).
* `evClosed sid`: the socket becomes `CLOSED` and `onclose` runs: only a
  channel-matching socket clears `_ws`/`_currentChannel`. -/
def processEv (w : LocalWorld) (e : Ev) : LocalWorld :=
  match e with
  | Ev.evOpen sid =>
    match getSock w sid with
    | none => w
    | some s =>
      if s.rs = RS.conn then
        let w1 := setRS w sid RS.opened
        if w1.currentChannel = some s.channel then w1
        else closeSock w1 sid
      else w
  | Ev.evTimeout ch =>
    if w.ws.isSome ∧ ¬ w.currentChannel = some ch then localUnsubscribeCh ch w
    else w
  | Ev.evClosed sid =>
    match getSock w sid with
    | none => w
    | some s =>
      let w1 := setRS w sid RS.closed
      if w1.currentChannel = some s.channel then
        { w1 with ws := none, currentChannel := none }
      else w1

/-- A WebSocket message arriving on socket `sid` (possible whenever the
socket is `OPEN`): the `onmessage` handler drops it unless
`_currentChannel` still equals the socket's captured channel, then invokes
`_callback` when set.  The delivery log records the socket's channel and
the callback invoked. -/
def deliverMsg (w : LocalWorld) (sid : Nat) : LocalWorld :=
  match getSock w sid with
  | none => w
  | some s =>
    if s.rs = RS.opened then
      if w.currentChannel = some s.channel then
        match w.callback with
        | some cb => { w with delivered := w.delivered ++ [(s.channel, cb)] }
        | none => w
      else w
    else w

/-- A scheduler step: process any one pending event, or let a message
arrive on any socket. -/
inductive Choice where
  | proc (e : Ev)
  | msg (sid : Nat)
deriving DecidableEq, Repr

/-- Run one scheduler step. -/
def stepChoice (w : LocalWorld) (c : Choice) : LocalWorld :=
  match c with
  | Choice.proc e =>
    if e ∈ w.pending then processEv { w with pending := w.pending.erase e } e
    else w
  | Choice.msg sid => deliverMsg w sid

/-- Run a schedule of steps. -/
def runChoices (w : LocalWorld) (cs : List Choice) : LocalWorld :=
  cs.foldl stepChoice w

/-- A freshly constructed `LocalDataFeeds` instance. -/
def initLocalWorld : LocalWorld := ⟨[], 0, none, none, none, [], []⟩

/-- The ids of the sockets currently `OPEN` (the live connections). -/
def openSockIds (w : LocalWorld) : List Nat :=
  (w.socks.filter (fun p => p.2.rs == RS.opened)).map (fun p => p.1)

/-- The world right after `subscribe(A)` immediately followed by
`subscribe(B)` (before any pending event has run). -/
def c1Start (sA : String) (pA : Period) (cbA : Nat)
    (sB : String) (pB : Period) (cbB : Nat) : LocalWorld :=
  localSubscribe sB pB cbB (localSubscribe sA pA cbA initLocalWorld)

/-- The invariant holding throughout the settling phase of the
subscribe-A-then-subscribe-B race. -/
def C1Inv (chA chB : String) (cbB : Nat) (w : LocalWorld) : Prop :=
  ∃ r0 r1,
    w.socks = [(0, ⟨chA, r0⟩), (1, ⟨chB, r1⟩)] ∧
    w.nextId = 2 ∧
    w.ws = some 1 ∧
    w.currentChannel = some chB ∧
    w.callback = some cbB ∧
    (r0 = RS.conn ∨ r0 = RS.closing ∨ r0 = RS.closed) ∧
    (r1 = RS.conn ∨ r1 = RS.opened) ∧
    (r0 = RS.conn → Ev.evOpen 0 ∈ w.pending) ∧
    (r0 = RS.closing → Ev.evClosed 0 ∈ w.pending) ∧
    (r1 = RS.conn → Ev.evOpen 1 ∈ w.pending) ∧
    (∀ e ∈ w.pending, e = Ev.evOpen 0 ∨ e = Ev.evTimeout chB ∨ e = Ev.evOpen 1 ∨ e = Ev.evClosed 0) ∧
    (∀ d ∈ w.delivered, d.1 = chB)

/-! ## CCXTDataFeeds subscription state -/

/-- The subscription-related fields of a `CCXTDataFeeds` instance:
`_currentCallback`, `_lastTimestamp`, `_pollingInterval` (the timer
handle) and `_ws`. -/
structure CCXTWorld where
  currentCallback : Option Nat
  lastTimestamp : Option Nat
  pollingInterval : Option Nat
  ws : Option Nat
deriving DecidableEq, Repr

/-- `CCXTDataFeeds.unsubscribe(symbol, period)`: the arguments are ignored
— the callback and last timestamp are cleared, the polling timer stopped
and the socket closed unconditionally. -/
def ccxtUnsubscribe (ticker : String) (p : Period) (w : CCXTWorld) : CCXTWorld :=
  ⟨none, none, none, none⟩

/-- `CCXTDataFeeds.subscribe` on the polling path (no `watchOHLCV`
capability): first `this.unsubscribe(symbol, period)`, then the callback
is stored and `_subscribePolling` installs a fresh timer (`timerId`). -/
def ccxtSubscribe (ticker : String) (p : Period) (cb : Nat) (timerId : Nat)
    (w : CCXTWorld) : CCXTWorld :=
  let w1 := ccxtUnsubscribe ticker p w
  { w1 with currentCallback := some cb, pollingInterval := some timerId }

/-! ## OKXDataFeeds subscription state -/

/-- One OKX WebSocket object: its `readyState` and the `pendingCallback`
and `pendingInstId` captured by the closure handlers at creation time. -/
structure OkxSock where
  rs : RS
  pendingCallback : Nat
  pendingInstId : String
deriving DecidableEq, Repr

/-- The subscription-related fields of an `OKXDataFeeds` instance, plus a
log of the subscribe frames written to an already-open socket. -/
structure OkxWorld where
  prevSymbolMarket : Option String
  ws : Option OkxSock
  currentChannel : Option String
  sentFrames : List (String × String)
deriving DecidableEq, Repr

/-- `OKXDataFeeds.subscribe`: when the market changed or no open socket
exists, the old socket is closed and a fresh `CONNECTING` one created
(capturing the new callback and instrument in its closures); otherwise the
existing open socket is kept and — when `_currentChannel` is truthy — a
subscribe frame for the requested channel is written to it and
`_currentChannel` updated.  On that path the closures of the existing
socket, and with them the effective callback, are untouched. -/
def okxSubscribe (market instId channel : String) (cb : Nat) (w : OkxWorld) : OkxWorld :=
  let reconnect :=
    match w.ws with
    | none => true
    | some s => decide (w.prevSymbolMarket ≠ some market) || decide (s.rs ≠ RS.opened)
  if reconnect then
    { prevSymbolMarket := some market
      ws := some ⟨RS.conn, cb, instId⟩
      currentChannel := some channel
      sentFrames := w.sentFrames }
  else
    let w2 :=
      match w.currentChannel with
      | some c =>
        if c = "" then w
        else { w with sentFrames := w.sentFrames ++ [(channel, instId)],
                      currentChannel := some channel }
      | none => w
    { w2 with prevSymbolMarket := some market }

/-! ## Theorems -/

theorem findDown_max {l : List Nat} {m v : Nat}
    (hs : List.Pairwise (fun a b => a > b) l)
    (hf : l.find? (fun v => decide (v ≤ m)) = some v) :
    ∀ w ∈ l, w ≤ m → w ≤ v := by
  induction l with
  | nil => simp at hf
  | cons a t ih =>
    rcases List.pairwise_cons.mp hs with ⟨ha, ht⟩
    by_cases hcond : a ≤ m
    · have : (a :: t).find? (fun v => decide (v ≤ m)) = some a :=
        List.find?_cons_of_pos _ (by simpa using hcond)
      rw [this] at hf
      cases hf
      intro w hw hwm
      rcases List.mem_cons.mp hw with rfl | hw
      · exact le_refl w
      · exact le_of_lt (ha w hw)
    · have : (a :: t).find? (fun v => decide (v ≤ m)) =
        t.find? (fun v => decide (v ≤ m)) :=
        List.find?_cons_of_neg _ (by simpa using hcond)
      rw [this] at hf
      intro w hw hwm
      rcases List.mem_cons.mp hw with rfl | hw
      · exact absurd hwm hcond
      · exact ih ht hf w hw hwm

theorem okxActual_spec (u : String) (m : Nat)
    (hhead : ∃ t, okxSupported u = 1 :: t)
    (hall : ∀ v ∈ okxSupported u, 1 ≤ v)
    (hsorted : List.Pairwise (fun a b => a > b) (okxSupported u).reverse) :
    (1 ≤ m → okxActualMultiplier m u ∈ okxSupported u ∧
      okxActualMultiplier m u ≤ m ∧
      ∀ v ∈ okxSupported u, v ≤ m → v ≤ okxActualMultiplier m u) ∧
    (m = 0 → okxActualMultiplier m u = 1) := by
  obtain ⟨t, hv⟩ := hhead
  cases hf : (okxSupported u).reverse.find? (fun v => decide (v ≤ m)) with
  | some v =>
    have hvmem : v ∈ okxSupported u :=
      List.mem_reverse.mp (List.mem_of_find?_eq_some hf)
    have hv1 : 1 ≤ v := hall v hvmem
    have hvm : v ≤ m := by
      have := List.find?_some hf
      simpa using this
    have hres : okxActualMultiplier m u = v := by
      have hf2 : List.find? (fun v => decide (v ≤ m)) (1 :: t).reverse = some v := hv ▸ hf
      simp only [okxActualMultiplier, hv, hf2]
      rw [if_neg (by omega)]
    constructor
    · intro _
      refine ⟨hres ▸ hvmem, hres ▸ hvm, ?_⟩
      intro w hw hwm
      rw [hres]
      exact findDown_max hsorted hf w (List.mem_reverse.mpr hw) hwm
    · intro hm0
      omega
  | none =>
    have hnone : ∀ x ∈ (okxSupported u).reverse, ¬ x ≤ m := by
      intro x hx
      have := List.find?_eq_none.mp hf x hx
      simpa using this
    have h1m : ¬ 1 ≤ m := by
      apply hnone
      exact List.mem_reverse.mpr (hv ▸ List.mem_cons_self 1 t)
    constructor
    · intro hm
      exact absurd hm h1m
    · intro hm0
      have hf2 : List.find? (fun v => decide (v ≤ m)) (1 :: t).reverse = none := hv ▸ hf
      simp only [okxActualMultiplier, hv, hf2]
      rw [if_pos (by omega)]

/-- Claim C2 counterexample: `CCXTDataFeeds._convertPeriodToTimeframe`
performs no supported-value rounding at all — 7 hours is emitted verbatim
as `"7h"`, although 7 is not a supported hourly granularity (the supported
hour multipliers are 1, 2, 4, 6, 12) and `"7h"` is none of the supported
hourly timeframes. -/
theorem c2_counterexample :
    ccxtConvertPeriodToTimeframe ⟨7, "hour"⟩ = "7h" ∧
    (7 : Nat) ∉ okxSupported "hour" ∧
    ∀ v ∈ okxSupported "hour", toString v ++ "h" ≠ "7h" := by
  refine ⟨rfl, by decide, by decide⟩

/-- Claim C2 (amended): `OKXDataFeeds._convertPeriodToBar` does round
down — for every recognized unit and positive multiplier it picks the
largest supported value not exceeding the request (so never above it) and
clamps a request below the smallest supported value up to that smallest
value.  `CCXTDataFeeds._convertPeriodToTimeframe`, by contrast, performs
no rounding: for every recognized unit it emits the requested multiplier
verbatim, delegating granularity selection to the ccxt library. -/
theorem c2_interval_rounds_down (m : Nat) (u : String)
    (hu : u = "minute" ∨ u = "hour" ∨ u = "day" ∨ u = "week" ∨ u = "month") :
    (1 ≤ m → okxActualMultiplier m u ∈ okxSupported u ∧
      okxActualMultiplier m u ≤ m ∧
      ∀ v ∈ okxSupported u, v ≤ m → v ≤ okxActualMultiplier m u) ∧
    (m = 0 → okxActualMultiplier m u = 1) ∧
    ccxtConvertPeriodToTimeframe ⟨m, u⟩ =
      toString m ++
        (if u = "minute" then "m" else if u = "hour" then "h"
         else if u = "day" then "d" else if u = "week" then "w" else "M") := by
  rcases hu with rfl | rfl | rfl | rfl | rfl
  · have h := okxActual_spec "minute" m ⟨[3, 5, 15, 30], rfl⟩ (by decide) (by decide)
    exact ⟨h.1, h.2, rfl⟩
  · have h := okxActual_spec "hour" m ⟨[2, 4, 6, 12], rfl⟩ (by decide) (by decide)
    exact ⟨h.1, h.2, rfl⟩
  · have h := okxActual_spec "day" m ⟨[], rfl⟩ (by decide) (by decide)
    exact ⟨h.1, h.2, rfl⟩
  · have h := okxActual_spec "week" m ⟨[], rfl⟩ (by decide) (by decide)
    exact ⟨h.1, h.2, rfl⟩
  · have h := okxActual_spec "month" m ⟨[], rfl⟩ (by decide) (by decide)
    exact ⟨h.1, h.2, rfl⟩

theorem c2_interval_rounds_down_witness :
    okxActualMultiplier 7 "hour" ∈ okxSupported "hour" ∧
    okxActualMultiplier 7 "hour" ≤ 7 ∧
    okxActualMultiplier 0 "minute" = 1 ∧
    ccxtConvertPeriodToTimeframe ⟨7, "hour"⟩ = "7h" := by
  have h1 := (c2_interval_rounds_down 7 "hour" (Or.inr (Or.inl rfl))).1 (by decide)
  have h2 := (c2_interval_rounds_down 0 "minute" (Or.inl rfl)).2.1 rfl
  have h3 := (c2_interval_rounds_down 7 "hour" (Or.inr (Or.inl rfl))).2.2
  refine ⟨h1.1, h1.2.1, h2, ?_⟩
  rw [h3]
  rfl

/-- Claim C9 counterexample: for the unrecognized unit `"year"`,
`LocalDataFeeds._convertPeriodToTimeframe` falls back to `"15m"`, not to
the one-minute default the claim demands of every conversion function. -/
theorem c9_counterexample :
    localConvertPeriodToTimeframe ⟨1, "year"⟩ = "15m" ∧ ("15m" : String) ≠ "1m" := by
  constructor
  · rfl
  · decide

/-- Claim C9 (amended): every interval conversion is a total function —
for an unrecognized unit `CCXTDataFeeds` and `OKXDataFeeds` fall back to
the one-minute default, while `LocalDataFeeds` falls back to fifteen
minutes; none of them throws. -/
theorem c9_unit_fallback (p : Period)
    (h : p.timespan ≠ "minute" ∧ p.timespan ≠ "hour" ∧ p.timespan ≠ "day" ∧
      p.timespan ≠ "week" ∧ p.timespan ≠ "month") :
    ccxtConvertPeriodToTimeframe p = "1m" ∧
    okxConvertPeriodToBar p = "1m" ∧
    localConvertPeriodToTimeframe p = "15m" := by
  obtain ⟨h1, h2, h3, h4, h5⟩ := h
  refine ⟨?_, ?_, ?_⟩
  · simp [ccxtConvertPeriodToTimeframe, h1, h2, h3, h4, h5]
  · simp [okxConvertPeriodToBar, h1, h2, h3, h4, h5]
  · simp [localConvertPeriodToTimeframe, h1, h2, h3, h4, h5]

theorem c9_unit_fallback_witness :
    ccxtConvertPeriodToTimeframe ⟨2, "year"⟩ = "1m" ∧
    okxConvertPeriodToBar ⟨2, "year"⟩ = "1m" ∧
    localConvertPeriodToTimeframe ⟨2, "year"⟩ = "15m" :=
  c9_unit_fallback ⟨2, "year"⟩ (by refine ⟨?_, ?_, ?_, ?_, ?_⟩ <;> decide)

theorem pollRunAux_strict_mono (ticks : List (Option Nat)) :
    ∀ last : Option Nat,
      (∀ ts : Nat, some ts ∈ ticks → 0 < ts) →
      List.Pairwise (fun a b => a < b) (pollRunAux last ticks) ∧
      (∀ v : Nat, last = some v → 0 < v →
        ∀ e ∈ pollRunAux last ticks, v < e) := by
  induction ticks with
  | nil => intro last _; simp [pollRunAux]
  | cons f rest ih =>
    intro last hpos
    have hposr : ∀ ts : Nat, some ts ∈ rest → 0 < ts := by
      intro ts h; exact hpos ts (List.mem_cons_of_mem _ h)
    cases f with
    | none =>
      have h := ih last hposr
      simp only [pollRunAux, pollStepFn, List.nil_append]
      exact h
    | some ts =>
      have hts : 0 < ts := hpos ts (List.mem_cons_self _ _)
      by_cases hg : pollDeliverGuard last ts = true
      · have h := ih (some ts) hposr
        have hrun : pollRunAux last (some ts :: rest) = ts :: pollRunAux (some ts) rest := by
          simp [pollRunAux, pollStepFn, hg]
        rw [hrun]
        constructor
        · refine List.pairwise_cons.mpr ⟨?_, h.1⟩
          intro e he
          exact h.2 ts rfl hts e he
        · intro v hv hv0 e he
          subst hv
          have hvts : v < ts := by
            simp only [pollDeliverGuard, Bool.or_eq_true, decide_eq_true_eq] at hg
            omega
          rcases List.mem_cons.mp he with rfl | he
          · exact hvts
          · exact lt_trans hvts (h.2 ts rfl hts e he)
      · have h := ih last hposr
        have hrun : pollRunAux last (some ts :: rest) = pollRunAux last rest := by
          simp [pollRunAux, pollStepFn, hg]
        rw [hrun]
        exact ⟨h.1, fun v hv hv0 e he => h.2 v hv hv0 e he⟩

/-- Claim C4 counterexample: a tick sequence fetching the bar with
timestamp `0` twice makes the polling loop deliver `0` twice — the guard
`!this._lastTimestamp` treats a stored timestamp of `0` as "nothing
delivered yet", so a timestamp is re-emitted and the delivered sequence is
not strictly increasing. -/
theorem c4_counterexample :
    pollRun [some 0, some 0] = [0, 0] ∧
    ¬ List.Pairwise (fun a b => a < b) (pollRun [some 0, some 0]) := by
  constructor
  · rfl
  · decide

/-- Claim C4 (amended): within one polling subscription, as long as every
fetched bar carries a positive timestamp, the delivered timestamps are
strictly increasing — no reordering and no re-emission.  (The qualifier is
forced by the `!this._lastTimestamp` truthiness guard, under which a bar
with timestamp `0` may be delivered repeatedly.) -/
theorem c4_poll_monotone (ticks : List (Option Nat))
    (hpos : ∀ ts : Nat, some ts ∈ ticks → 0 < ts) :
    List.Pairwise (fun a b => a < b) (pollRun ticks) :=
  (pollRunAux_strict_mono ticks none hpos).1

theorem c4_poll_monotone_witness :
    List.Pairwise (fun a b => a < b) (pollRun [some 5, some 3, none, some 7, some 7]) :=
  c4_poll_monotone [some 5, some 3, none, some 7, some 7] (by
    intro ts h
    simp at h
    omega)

/-- Claim C5 counterexample: a successful OKX fetch over the range
`[0, 1000]` whose upstream response contains a candle at timestamp `2000`
returns that bar unchanged — the OKX adapter never drops bars outside
`[from, to]` (the range only parameterizes the request URL). -/
theorem c5_counterexample :
    okxGetHistoryKLineData 0 1000 ⟨true, some ⟨"0", [⟨2000, 1, 2, 3, 4, 5, 6⟩]⟩⟩ =
      Except.ok [⟨2000, 1, 2, 3, 4, 5, 6⟩] ∧
    ¬ ((2000 : Int) ≤ 1000) := by
  constructor
  · rfl
  · decide

/-- Claim C5 (amended): `CCXTDataFeeds.getHistoryKLineData` returns only
bars with timestamps inside `[from, to]` and preserves the upstream order
(so the result is ascending exactly when the provider answered ascending);
`OKXDataFeeds.getHistoryKLineData` reverses a newest-first response into a
strictly ascending one but performs no range filtering, and the default
adapter performs neither. -/
theorem c5_history_range_and_order (fromMs toMs : Int)
    (ohlcv : List CcxtCandle) (data : List OkxCandle) :
    (∀ b ∈ ccxtHistoryBars fromMs toMs ohlcv,
      fromMs ≤ b.timestamp ∧ b.timestamp ≤ toMs) ∧
    (List.Pairwise (fun a b => a.ts < b.ts) ohlcv →
      List.Pairwise (fun a b => a.timestamp < b.timestamp)
        (ccxtHistoryBars fromMs toMs ohlcv)) ∧
    (List.Pairwise (fun a b => a.ts > b.ts) data →
      List.Pairwise (fun a b => a.timestamp < b.timestamp)
        (okxHistoryBars data)) := by
  refine ⟨?_, ?_, ?_⟩
  · intro b hb
    simp only [ccxtHistoryBars, List.mem_map, List.mem_filter] at hb
    obtain ⟨x, ⟨hx, hcond⟩, rfl⟩ := hb
    simp only [Bool.and_eq_true, decide_eq_true_eq] at hcond
    exact hcond
  · intro h
    simp only [ccxtHistoryBars]
    rw [List.pairwise_map]
    exact (h.filter _).imp (fun hab => hab)
  · intro h
    simp only [okxHistoryBars]
    rw [List.pairwise_reverse, List.pairwise_map]
    exact h.imp (fun hab => hab)

theorem c5_history_range_and_order_witness :
    (∀ b ∈ ccxtHistoryBars 10 30 [⟨5, 0, 0, 0, 2, 3⟩, ⟨10, 0, 0, 0, 2, 3⟩, ⟨20, 0, 0, 0, 2, 3⟩, ⟨40, 0, 0, 0, 2, 3⟩],
      (10 : Int) ≤ b.timestamp ∧ b.timestamp ≤ 30) ∧
    List.Pairwise (fun a b => a.timestamp < b.timestamp)
      (okxHistoryBars [⟨3, 0, 0, 0, 1, 1, 0⟩, ⟨2, 0, 0, 0, 1, 1, 0⟩, ⟨1, 0, 0, 0, 1, 1, 0⟩]) := by
  have h := c5_history_range_and_order 10 30
    [⟨5, 0, 0, 0, 2, 3⟩, ⟨10, 0, 0, 0, 2, 3⟩, ⟨20, 0, 0, 0, 2, 3⟩, ⟨40, 0, 0, 0, 2, 3⟩]
    [⟨3, 0, 0, 0, 1, 1, 0⟩, ⟨2, 0, 0, 0, 1, 1, 0⟩, ⟨1, 0, 0, 0, 1, 1, 0⟩]
  exact ⟨h.1, h.2.2 (by decide)⟩

/-- Claim C6 counterexample: `LocalDataFeeds.getHistoryKLineData` on a
non-2xx response with an unreadable body settles successfully with the
empty list — the failure is converted into an empty result instead of a
rejection. -/
theorem c6_counterexample :
    localGetHistoryKLineData ⟨false, none⟩ = Except.ok [] ∧
    isErr (localGetHistoryKLineData ⟨false, none⟩) = false := by
  constructor
  · rfl
  · rfl

/-- Claim C6 (amended): for the default (Massive.com) and OKX adapters a
non-2xx response or a malformed body makes `getHistoryKLineData` reject
(one request, no internal retry), and `CCXTDataFeeds` re-throws its
upstream error unchanged; `LocalDataFeeds`, however, catches every failure
and settles successfully with the empty list. -/
theorem c6_history_error_surfacing (fromMs toMs : Int) (e : String)
    (r : OkxResp) (d : DefaultResp) (l : LocalResp) :
    (r.ok = false ∨ r.body = none →
      isErr (okxGetHistoryKLineData fromMs toMs r) = true) ∧
    (d.ok = false ∨ d.body = none →
      isErr (defaultGetHistoryKLineData d) = true) ∧
    ccxtGetHistoryKLineData fromMs toMs (Except.error e) = Except.error e ∧
    (l.ok = false ∨ l.body = none →
      localGetHistoryKLineData l = Except.ok []) := by
  refine ⟨?_, ?_, rfl, ?_⟩
  · intro h
    rcases h with h | h
    · simp [okxGetHistoryKLineData, h, isErr]
    · cases hok : r.ok
      · simp [okxGetHistoryKLineData, hok, isErr]
      · simp [okxGetHistoryKLineData, hok, h, isErr]
  · intro h
    rcases h with h | h
    · simp [defaultGetHistoryKLineData, h, isErr]
    · cases hok : d.ok
      · simp [defaultGetHistoryKLineData, hok, isErr]
      · simp [defaultGetHistoryKLineData, hok, h, isErr]
  · intro h
    rcases h with h | h
    · simp [localGetHistoryKLineData, h]
    · cases hok : l.ok
      · simp [localGetHistoryKLineData, hok]
      · simp [localGetHistoryKLineData, hok, h]

theorem c6_history_error_surfacing_witness :
    isErr (okxGetHistoryKLineData 0 9 ⟨false, none⟩) = true ∧
    isErr (defaultGetHistoryKLineData ⟨true, none⟩) = true ∧
    localGetHistoryKLineData ⟨true, none⟩ = Except.ok [] := by
  have h := c6_history_error_surfacing 0 9 "boom" ⟨false, none⟩ ⟨true, none⟩ ⟨true, none⟩
  exact ⟨h.1 (Or.inl rfl), h.2.1 (Or.inr rfl), h.2.2.2 (Or.inr rfl)⟩

theorem hasChar_append (a b : List Char) (c : Char) :
    hasChar (a ++ b) c = (hasChar a c || hasChar b c) := by
  induction a with
  | nil => simp [hasChar]
  | cons x xs ih => simp [hasChar, ih, Bool.or_assoc]

theorem hasChar_dashUSD (a : List Char) : hasChar (a ++ dashUSD) '-' = true := by
  rw [hasChar_append]
  simp [dashUSD, hasChar]

theorem splitOnUSD_length (s : List Char) :
    (splitOnUSD s).length = countUSD s + 1 := by
  induction s using splitOnUSD.induct with
  | case1 => simp [splitOnUSD, countUSD]
  | case2 c rest h ih => simp [splitOnUSD, countUSD, h, ih]
  | case3 c rest h hsplit ih =>
    rw [hsplit] at ih
    simp at ih
  | case4 c rest h hd tl hsplit ih =>
    rw [hsplit] at ih
    simp only [List.length_cons] at ih
    simp [splitOnUSD, countUSD, h, hsplit]
    omega

theorem splitOnUSD_head (s : List Char) :
    ∃ tl, splitOnUSD s = beforeFirstUSD s :: tl := by
  induction s using splitOnUSD.induct with
  | case1 => exact ⟨[], by simp [splitOnUSD, beforeFirstUSD]⟩
  | case2 c rest h ih =>
    refine ⟨splitOnUSD (List.drop 2 rest), ?_⟩
    simp [splitOnUSD, beforeFirstUSD, h]
  | case3 c rest h hsplit ih =>
    obtain ⟨tl, htl⟩ := ih
    rw [htl] at hsplit
    cases hsplit
  | case4 c rest h hd tl hsplit ih =>
    obtain ⟨tl2, htl⟩ := ih
    rw [htl] at hsplit
    injection hsplit with h1 h2
    subst h1
    subst h2
    refine ⟨tl2, ?_⟩
    simp [splitOnUSD, beforeFirstUSD, h, htl]

theorem convertTickerFormat_idem (t : List Char) :
    convertTickerFormat (convertTickerFormat t) = convertTickerFormat t := by
  by_cases hc : hasChar t '-' = true
  · simp [convertTickerFormat, hc]
  · cases hsp : splitOnUSD (stripXDot t) with
    | nil =>
      have hft : convertTickerFormat t = t := by
        simp [convertTickerFormat, hc, hsp]
      rw [hft]
      exact hft
    | cons a rest =>
      cases rest with
      | nil =>
        have hft : convertTickerFormat t = t := by
          simp [convertTickerFormat, hc, hsp]
        rw [hft]
        exact hft
      | cons b rest2 =>
        cases rest2 with
        | nil =>
          have hft : convertTickerFormat t = a ++ dashUSD := by
            simp [convertTickerFormat, hc, hsp]
          rw [hft]
          simp [convertTickerFormat, hasChar_dashUSD]
        | cons d rest3 =>
          have hft : convertTickerFormat t = t := by
            simp [convertTickerFormat, hc, hsp]
          rw [hft]
          exact hft

theorem okxConvertTickerFormat_idem (t quote : List Char) :
    okxConvertTickerFormat (okxConvertTickerFormat t quote) quote =
      okxConvertTickerFormat t quote := by
  by_cases hc : hasChar t '-' = true
  · simp [okxConvertTickerFormat, hc]
  · have hft : okxConvertTickerFormat t quote =
        stripSuffixList usdtSep (stripSuffixList usdSep (stripXDot t)) ++ '-' :: quote := by
      simp [okxConvertTickerFormat, hc]
    rw [hft]
    have hdash : hasChar
        (stripSuffixList usdtSep (stripSuffixList usdSep (stripXDot t)) ++ '-' :: quote)
        '-' = true := by
      rw [hasChar_append]
      simp [hasChar]
    simp [okxConvertTickerFormat, hdash]

theorem hasChar_replaceFirst (t : List Char) (a b : Char)
    (h : hasChar t a = true) : hasChar (replaceFirst t a b) b = true := by
  induction t with
  | nil => simp [hasChar] at h
  | cons c rest ih =>
    by_cases hca : c = a
    · simp [replaceFirst, hca, hasChar]
    · have hrest : hasChar rest a = true := by
        simp only [hasChar, Bool.or_eq_true, beq_iff_eq] at h
        rcases h with h | h
        · exact absurd h hca
        · exact h
      simp only [replaceFirst, if_neg hca, hasChar, Bool.or_eq_true]
      exact Or.inr (ih hrest)

theorem ccxtConvert_slash (s : CcxtSymbolInfo) :
    hasChar (ccxtConvertTickerToSymbol s) '/' = true := by
  by_cases h1 : hasChar s.ticker '/' = true
  · simp [ccxtConvertTickerToSymbol, h1]
  · by_cases h2 : hasChar s.ticker '-' = true
    · simp only [ccxtConvertTickerToSymbol, if_neg h1, if_pos h2]
      exact hasChar_replaceFirst s.ticker '-' '/' h2
    · simp only [ccxtConvertTickerToSymbol, if_neg h1, if_neg h2]
      rw [hasChar_append]
      simp [hasChar]

theorem ccxtConvertTickerToSymbol_idem (s : CcxtSymbolInfo) :
    ccxtConvertTickerToSymbol { s with ticker := ccxtConvertTickerToSymbol s } =
      ccxtConvertTickerToSymbol s := by
  have hslash := ccxtConvert_slash s
  rw [ccxtConvertTickerToSymbol]
  simp only []
  rw [if_pos hslash]

/-- Claim C7: ticker normalization is idempotent for all three adapters
(`DefaultDatafeed._convertTickerFormat`, `OKXDataFeeds._convertTickerFormat`
with any quote currency, and `CCXTDataFeeds._convertTickerToSymbol` re-run
on its own output), and a ticker already in target form (containing the
separator) is returned unchanged. -/
theorem c7_ticker_normalization_idempotent (t quote : List Char) (s : CcxtSymbolInfo) :
    convertTickerFormat (convertTickerFormat t) = convertTickerFormat t ∧
    okxConvertTickerFormat (okxConvertTickerFormat t quote) quote =
      okxConvertTickerFormat t quote ∧
    ccxtConvertTickerToSymbol { s with ticker := ccxtConvertTickerToSymbol s } =
      ccxtConvertTickerToSymbol s ∧
    (hasChar t '-' = true →
      convertTickerFormat t = t ∧ okxConvertTickerFormat t quote = t) :=
  ⟨convertTickerFormat_idem t, okxConvertTickerFormat_idem t quote,
    ccxtConvertTickerToSymbol_idem s,
    fun hc => ⟨by simp [convertTickerFormat, hc], by simp [okxConvertTickerFormat, hc]⟩⟩

theorem c7_ticker_normalization_idempotent_witness :
    convertTickerFormat (convertTickerFormat "X.BTCUSD".toList) =
      convertTickerFormat "X.BTCUSD".toList ∧
    convertTickerFormat "BTC-USD".toList = "BTC-USD".toList := by
  have h := c7_ticker_normalization_idempotent "X.BTCUSD".toList "USDT".toList
    ⟨"BTCUSDT".toList, none, none⟩
  have h2 := c7_ticker_normalization_idempotent "BTC-USD".toList "USDT".toList
    ⟨"BTCUSDT".toList, none, none⟩
  exact ⟨h.1, (h2.2.2.2 (by decide)).1⟩

/-- Claim C10: for a ticker without `'-'`, `DefaultDatafeed` strips a
leading `"X."` and splits on `"USD"`: exactly one occurrence of `"USD"`
yields the part before it followed by `"-USD"` (characters after `"USD"`
are discarded); zero or several occurrences leave the ticker unchanged. -/
theorem c10_default_ticker_split (t : List Char) (hd : hasChar t '-' = false) :
    (countUSD (stripXDot t) = 1 →
      convertTickerFormat t = beforeFirstUSD (stripXDot t) ++ dashUSD) ∧
    (countUSD (stripXDot t) ≠ 1 → convertTickerFormat t = t) := by
  have hlen := splitOnUSD_length (stripXDot t)
  obtain ⟨tl, htl⟩ := splitOnUSD_head (stripXDot t)
  have hcb : ¬ hasChar t '-' = true := by simp [hd]
  constructor
  · intro h1
    rw [h1] at hlen
    rw [htl] at hlen
    simp only [List.length_cons] at hlen
    have : tl.length = 1 := by omega
    cases tl with
    | nil => simp at this
    | cons b tl2 =>
      cases tl2 with
      | nil => simp [convertTickerFormat, hcb, htl]
      | cons d tl3 => simp at this
  · intro h1
    have hne : (splitOnUSD (stripXDot t)).length ≠ 2 := by omega
    cases hsp : splitOnUSD (stripXDot t) with
    | nil => simp [convertTickerFormat, hcb, hsp]
    | cons a rest =>
      cases rest with
      | nil => simp [convertTickerFormat, hcb, hsp]
      | cons b rest2 =>
        cases rest2 with
        | nil =>
          rw [hsp] at hne
          simp at hne
        | cons d rest3 => simp [convertTickerFormat, hcb, hsp]

theorem c10_default_ticker_split_witness :
    convertTickerFormat "ETHUSDT".toList = "ETH-USD".toList ∧
    convertTickerFormat "BTCUSDCUSDT".toList = "BTCUSDCUSDT".toList := by
  have h1 := (c10_default_ticker_split "ETHUSDT".toList (by decide)).1
    (by rw [show stripXDot "ETHUSDT".toList = "ETHUSDT".toList from rfl]
        simp [countUSD, usdSep, List.isPrefixOf])
  have h2 := (c10_default_ticker_split "BTCUSDCUSDT".toList (by decide)).2
    (by rw [show stripXDot "BTCUSDCUSDT".toList = "BTCUSDCUSDT".toList from rfl]
        simp [countUSD, usdSep, List.isPrefixOf])
  constructor
  · rw [h1]
    decide
  · exact h2

/-- Claim C3 counterexample: `CCXTDataFeeds` with an active polling
subscription (callback `7`, timer `3`) — `unsubscribe` called with a
*different* symbol/period still clears the callback and stops the timer,
because `CCXTDataFeeds.unsubscribe` never compares channels. -/
theorem c3_counterexample :
    (ccxtSubscribe "BTC/USDT" ⟨1, "minute"⟩ 7 3 ⟨none, none, none, none⟩).currentCallback = some 7 ∧
    (ccxtSubscribe "BTC/USDT" ⟨1, "minute"⟩ 7 3 ⟨none, none, none, none⟩).pollingInterval = some 3 ∧
    (ccxtUnsubscribe "ETH/USDT" ⟨5, "hour"⟩
      (ccxtSubscribe "BTC/USDT" ⟨1, "minute"⟩ 7 3 ⟨none, none, none, none⟩)).currentCallback = none ∧
    (ccxtUnsubscribe "ETH/USDT" ⟨5, "hour"⟩
      (ccxtSubscribe "BTC/USDT" ⟨1, "minute"⟩ 7 3 ⟨none, none, none, none⟩)).pollingInterval = none := by
  refine ⟨rfl, rfl, rfl, rfl⟩

/-- Claim C3 (amended): in `LocalDataFeeds`, `unsubscribe` with a
symbol/period whose derived channel differs from the active channel is a
complete no-op (socket, channel and callback untouched);
`CCXTDataFeeds.unsubscribe`, by contrast, ignores its arguments and always
clears the callback, the last timestamp, the polling timer and the
socket. -/
theorem c3_unsubscribe_mismatch_noop (t : String) (p : Period)
    (w : LocalWorld) (w2 : CCXTWorld)
    (h : w.currentChannel ≠ some (localChannel t p)) :
    localUnsubscribe t p w = w ∧
    ccxtUnsubscribe t p w2 = ⟨none, none, none, none⟩ := by
  constructor
  · unfold localUnsubscribe localUnsubscribeCh
    cases hws : w.ws with
    | none => rfl
    | some sid => simp [h]
  · rfl

theorem c3_unsubscribe_mismatch_noop_witness :
    localUnsubscribe "ETH-USD" ⟨1, "minute"⟩
      ⟨[(0, ⟨"BTC-USD_1m", RS.opened⟩)], 1, some 0, some "BTC-USD_1m", some 9, [], []⟩ =
      ⟨[(0, ⟨"BTC-USD_1m", RS.opened⟩)], 1, some 0, some "BTC-USD_1m", some 9, [], []⟩ := by
  have h := c3_unsubscribe_mismatch_noop "ETH-USD" ⟨1, "minute"⟩
    ⟨[(0, ⟨"BTC-USD_1m", RS.opened⟩)], 1, some 0, some "BTC-USD_1m", some 9, [], []⟩
    ⟨none, none, none, none⟩ (by decide)
  exact h.1

/-- Claim C8 counterexample: `OKXDataFeeds` with an open socket whose
closures captured callback `1`, re-subscribed to the *same* channel with a
new callback `2`: the socket is kept but the effective callback is still
the captured `1` — the stored callback reference is *not* replaced — and a
fresh subscribe frame is written to the wire. -/
theorem c8_counterexample :
    (okxSubscribe "crypto" "BTC-USDT" "candles1m" 2
      ⟨some "crypto", some ⟨RS.opened, 1, "BTC-USDT"⟩, some "candles1m", []⟩).ws =
      some ⟨RS.opened, 1, "BTC-USDT"⟩ ∧
    (1 : Nat) ≠ 2 ∧
    (okxSubscribe "crypto" "BTC-USDT" "candles1m" 2
      ⟨some "crypto", some ⟨RS.opened, 1, "BTC-USDT"⟩, some "candles1m", []⟩).sentFrames =
      [("candles1m", "BTC-USDT")] := by
  refine ⟨by decide, by decide, by decide⟩

/-- Claim C8 (amended): re-subscribing to the unchanged channel over an
open connection keeps the connection (no close, no new socket) and the
channel identifier; in `LocalDataFeeds` exactly the stored callback
reference is swapped, while in `OKXDataFeeds` the old captured callback
stays in effect and a duplicate subscribe frame is sent instead. -/
theorem c8_same_channel_resubscribe (t : String) (p : Period) (cb : Nat)
    (w : LocalWorld) (sid : Nat) (s : Sock)
    (market instId ch : String) (cb2 : Nat) (w2 : OkxWorld) (s2 : OkxSock)
    (hch : w.currentChannel = some (localChannel t p))
    (hws : w.ws = some sid) (hs : getSock w sid = some s) (hrs : s.rs = RS.opened)
    (hws2 : w2.ws = some s2) (hrs2 : s2.rs = RS.opened)
    (hmk2 : w2.prevSymbolMarket = some market)
    (hch2 : w2.currentChannel = some ch) (hne2 : ch ≠ "") :
    localSubscribe t p cb w = { w with callback := some cb } ∧
    okxSubscribe market instId ch cb2 w2 =
      { w2 with sentFrames := w2.sentFrames ++ [(ch, instId)],
                currentChannel := some ch,
                prevSymbolMarket := some market } := by
  constructor
  · have hopen : wsIsOpen w = true := by
      simp [wsIsOpen, hws, hs, hrs]
    unfold localSubscribe
    rw [if_pos ⟨hch, hopen⟩]
  · simp [okxSubscribe, hws2, hmk2, hrs2, hch2, hne2]

theorem c8_same_channel_resubscribe_witness :
    localSubscribe "BTC-USD" ⟨1, "minute"⟩ 5
      ⟨[(0, ⟨"BTC-USD_1m", RS.opened⟩)], 1, some 0, some "BTC-USD_1m", some 9, [], []⟩ =
      ⟨[(0, ⟨"BTC-USD_1m", RS.opened⟩)], 1, some 0, some "BTC-USD_1m", some 5, [], []⟩ ∧
    okxSubscribe "crypto" "BTC-USDT" "candles1m" 5
      ⟨some "crypto", some ⟨RS.opened, 9, "BTC-USDT"⟩, some "candles1m", []⟩ =
      ⟨some "crypto", some ⟨RS.opened, 9, "BTC-USDT"⟩, some "candles1m",
        [("candles1m", "BTC-USDT")]⟩ := by
  have h := c8_same_channel_resubscribe "BTC-USD" ⟨1, "minute"⟩ 5
    ⟨[(0, ⟨"BTC-USD_1m", RS.opened⟩)], 1, some 0, some "BTC-USD_1m", some 9, [], []⟩
    0 ⟨"BTC-USD_1m", RS.opened⟩
    "crypto" "BTC-USDT" "candles1m" 5
    ⟨some "crypto", some ⟨RS.opened, 9, "BTC-USDT"⟩, some "candles1m", []⟩
    ⟨RS.opened, 9, "BTC-USDT"⟩
    (by decide) rfl (by decide) rfl rfl rfl rfl rfl (by decide)
  exact h

/-- Claim C1 counterexample: `subscribe(A)`, let A's socket open, then
`subscribe(B)` and let B's socket open — all pending events settled —
leaves **two** open WebSockets.  The implicit close of the superseded
connection calls `unsubscribe` with the *new* symbol/period, whose
channel-match guard then mismatches the old channel and skips the close,
so the universal "at most one live connection" invariant fails. -/
theorem c1_counterexample :
    (runChoices
      (localSubscribe "ETH-USD" ⟨1, "minute"⟩ 2
        (runChoices (localSubscribe "BTC-USD" ⟨1, "minute"⟩ 1 initLocalWorld)
          [Choice.proc (Ev.evOpen 0)]))
      [Choice.proc (Ev.evOpen 1)]).pending = [] ∧
    ¬ (openSockIds
      (runChoices
        (localSubscribe "ETH-USD" ⟨1, "minute"⟩ 2
          (runChoices (localSubscribe "BTC-USD" ⟨1, "minute"⟩ 1 initLocalWorld)
            [Choice.proc (Ev.evOpen 0)]))
        [Choice.proc (Ev.evOpen 1)])).length ≤ 1 := by
  decide

theorem c1_inv_init (sA sB : String) (pA pB : Period) (cbA cbB : Nat)
    (hne : localChannel sA pA ≠ localChannel sB pB) :
    C1Inv (localChannel sA pA) (localChannel sB pB) cbB (c1Start sA pA cbA sB pB cbB) := by
  have h1 : localSubscribe sA pA cbA initLocalWorld =
      ⟨[(0, ⟨localChannel sA pA, RS.conn⟩)], 1, some 0, some (localChannel sA pA),
        some cbA, [Ev.evOpen 0], []⟩ := by
    simp [localSubscribe, initLocalWorld, wsIsOpen]
  have h2 : c1Start sA pA cbA sB pB cbB =
      ⟨[(0, ⟨localChannel sA pA, RS.conn⟩), (1, ⟨localChannel sB pB, RS.conn⟩)], 2,
        some 1, some (localChannel sB pB), some cbB,
        [Ev.evOpen 0, Ev.evTimeout (localChannel sB pB), Ev.evOpen 1], []⟩ := by
    rw [c1Start, h1]
    simp [localSubscribe, wsIsOpen, getSock, hne]
  rw [h2]
  refine ⟨RS.conn, RS.conn, rfl, rfl, rfl, rfl, rfl, Or.inl rfl, Or.inl rfl,
    ?_, ?_, ?_, ?_, ?_⟩
  · intro _; simp
  · intro hq; cases hq
  · intro _; simp
  · intro e he
    simp only [List.mem_cons, List.not_mem_nil, or_false] at he
    rcases he with rfl | rfl | rfl
    · exact Or.inl rfl
    · exact Or.inr (Or.inl rfl)
    · exact Or.inr (Or.inr (Or.inl rfl))
  · intro d hd; cases hd

theorem c1_inv_step (chA chB : String) (cbB : Nat) (hne : chA ≠ chB)
    (w : LocalWorld) (c : Choice) (h : C1Inv chA chB cbB w) :
    C1Inv chA chB cbB (stepChoice w c) := by
  obtain ⟨r0, r1, hsocks, hnext, hws, hch, hcb, hr0, hr1, hp0, hpc0, hp1, hsub, hdel⟩ := h
  obtain ⟨sk, ni, ws0, ch0, cb0, pd, dl⟩ := w
  simp only at hsocks hnext hws hch hcb hp0 hpc0 hp1 hsub hdel
  subst hsocks; subst hnext; subst hws; subst hch; subst hcb
  cases c with
  | msg sid =>
    by_cases h0 : sid = 0
    · subst h0
      have hstep : ∀ r0v, stepChoice
          ⟨[(0, ⟨chA, r0v⟩), (1, ⟨chB, r1⟩)], 2, some 1, some chB, some cbB, pd, dl⟩
          (Choice.msg 0) =
          if r0v = RS.opened then
            (if chB = chA then
              ⟨[(0, ⟨chA, r0v⟩), (1, ⟨chB, r1⟩)], 2, some 1, some chB, some cbB, pd,
                dl ++ [(chA, cbB)]⟩
            else
              ⟨[(0, ⟨chA, r0v⟩), (1, ⟨chB, r1⟩)], 2, some 1, some chB, some cbB, pd, dl⟩)
          else
            ⟨[(0, ⟨chA, r0v⟩), (1, ⟨chB, r1⟩)], 2, some 1, some chB, some cbB, pd, dl⟩ := by
        intro r0v
        cases r0v <;> simp [stepChoice, deliverMsg, getSock, hne, Ne.symm hne]
      rw [hstep r0]
      rcases hr0 with rfl | rfl | rfl <;>
        simp [Ne.symm hne] <;>
        exact ⟨_, r1, rfl, rfl, rfl, rfl, rfl, by simp, hr1, hp0, hpc0, hp1, hsub, hdel⟩
    · by_cases h1 : sid = 1
      · subst h1
        rcases hr1 with rfl | rfl
        · -- socket 1 still connecting: message cannot arrive
          have hstep : stepChoice
              ⟨[(0, ⟨chA, r0⟩), (1, ⟨chB, RS.conn⟩)], 2, some 1, some chB, some cbB, pd, dl⟩
              (Choice.msg 1) =
              ⟨[(0, ⟨chA, r0⟩), (1, ⟨chB, RS.conn⟩)], 2, some 1, some chB, some cbB, pd, dl⟩ := by
            simp [stepChoice, deliverMsg, getSock]
          rw [hstep]
          exact ⟨r0, RS.conn, rfl, rfl, rfl, rfl, rfl, hr0, Or.inl rfl, hp0, hpc0, hp1, hsub, hdel⟩
        · -- socket 1 open: the bar is delivered to the current callback
          have hstep : stepChoice
              ⟨[(0, ⟨chA, r0⟩), (1, ⟨chB, RS.opened⟩)], 2, some 1, some chB, some cbB, pd, dl⟩
              (Choice.msg 1) =
              ⟨[(0, ⟨chA, r0⟩), (1, ⟨chB, RS.opened⟩)], 2, some 1, some chB, some cbB, pd,
                dl ++ [(chB, cbB)]⟩ := by
            simp [stepChoice, deliverMsg, getSock]
          rw [hstep]
          refine ⟨r0, RS.opened, rfl, rfl, rfl, rfl, rfl, hr0, Or.inr rfl, hp0, hpc0, hp1, hsub, ?_⟩
          intro d hd
          rcases List.mem_append.mp hd with hd | hd
          · exact hdel d hd
          · simp only [List.mem_singleton] at hd
            subst hd
            rfl
      · -- message for a socket id this adapter never created
        have e0 : ((0 : Nat) == sid) = false := by
          simp [Ne.symm h0]
        have e1 : ((1 : Nat) == sid) = false := by
          simp [Ne.symm h1]
        have hstep : stepChoice
            ⟨[(0, ⟨chA, r0⟩), (1, ⟨chB, r1⟩)], 2, some 1, some chB, some cbB, pd, dl⟩
            (Choice.msg sid) =
            ⟨[(0, ⟨chA, r0⟩), (1, ⟨chB, r1⟩)], 2, some 1, some chB, some cbB, pd, dl⟩ := by
          simp [stepChoice, deliverMsg, getSock, e0, e1]
        rw [hstep]
        exact ⟨r0, r1, rfl, rfl, rfl, rfl, rfl, hr0, hr1, hp0, hpc0, hp1, hsub, hdel⟩
  | proc e =>
    by_cases hmem : e ∈ pd
    · have he4 := hsub e hmem
      rcases he4 with rfl | rfl | rfl | rfl
      · -- the open event of the superseded socket 0
        rcases hr0 with rfl | rfl | rfl
        · have hstep : stepChoice
              ⟨[(0, ⟨chA, RS.conn⟩), (1, ⟨chB, r1⟩)], 2, some 1, some chB, some cbB, pd, dl⟩
              (Choice.proc (Ev.evOpen 0)) =
              ⟨[(0, ⟨chA, RS.closing⟩), (1, ⟨chB, r1⟩)], 2, some 1, some chB, some cbB,
                pd.erase (Ev.evOpen 0) ++ [Ev.evClosed 0], dl⟩ := by
            simp [stepChoice, hmem, processEv, getSock, setRS, closeSock, Ne.symm hne]
          rw [hstep]
          refine ⟨RS.closing, r1, rfl, rfl, rfl, rfl, rfl, Or.inr (Or.inl rfl), hr1,
            ?_, ?_, ?_, ?_, hdel⟩
          · intro hq; exact absurd hq (by decide)
          · intro _
            exact List.mem_append_right _ (List.mem_singleton.mpr rfl)
          · intro hq
            exact List.mem_append_left _ ((List.mem_erase_of_ne (by decide)).mpr (hp1 hq))
          · intro e2 he2
            rcases List.mem_append.mp he2 with he2 | he2
            · exact hsub e2 (List.erase_subset _ _ he2)
            · simp only [List.mem_singleton] at he2
              subst he2
              exact Or.inr (Or.inr (Or.inr rfl))
        · have hstep : stepChoice
              ⟨[(0, ⟨chA, RS.closing⟩), (1, ⟨chB, r1⟩)], 2, some 1, some chB, some cbB, pd, dl⟩
              (Choice.proc (Ev.evOpen 0)) =
              ⟨[(0, ⟨chA, RS.closing⟩), (1, ⟨chB, r1⟩)], 2, some 1, some chB, some cbB,
                pd.erase (Ev.evOpen 0), dl⟩ := by
            simp [stepChoice, hmem, processEv, getSock]
          rw [hstep]
          refine ⟨RS.closing, r1, rfl, rfl, rfl, rfl, rfl, Or.inr (Or.inl rfl), hr1,
            ?_, ?_, ?_, ?_, hdel⟩
          · intro hq; exact absurd hq (by decide)
          · intro _
            exact (List.mem_erase_of_ne (by decide)).mpr (hpc0 rfl)
          · intro hq
            exact (List.mem_erase_of_ne (by decide)).mpr (hp1 hq)
          · intro e2 he2
            exact hsub e2 (List.erase_subset _ _ he2)
        · have hstep : stepChoice
              ⟨[(0, ⟨chA, RS.closed⟩), (1, ⟨chB, r1⟩)], 2, some 1, some chB, some cbB, pd, dl⟩
              (Choice.proc (Ev.evOpen 0)) =
              ⟨[(0, ⟨chA, RS.closed⟩), (1, ⟨chB, r1⟩)], 2, some 1, some chB, some cbB,
                pd.erase (Ev.evOpen 0), dl⟩ := by
            simp [stepChoice, hmem, processEv, getSock]
          rw [hstep]
          refine ⟨RS.closed, r1, rfl, rfl, rfl, rfl, rfl, Or.inr (Or.inr rfl), hr1,
            ?_, ?_, ?_, ?_, hdel⟩
          · intro hq; exact absurd hq (by decide)
          · intro hq; exact absurd hq (by decide)
          · intro hq
            exact (List.mem_erase_of_ne (by decide)).mpr (hp1 hq)
          · intro e2 he2
            exact hsub e2 (List.erase_subset _ _ he2)
      · -- the deferred-close timeout: its unsubscribe guard never fires
        have hstep : stepChoice
            ⟨[(0, ⟨chA, r0⟩), (1, ⟨chB, r1⟩)], 2, some 1, some chB, some cbB, pd, dl⟩
            (Choice.proc (Ev.evTimeout chB)) =
            ⟨[(0, ⟨chA, r0⟩), (1, ⟨chB, r1⟩)], 2, some 1, some chB, some cbB,
              pd.erase (Ev.evTimeout chB), dl⟩ := by
          simp [stepChoice, hmem, processEv]
        rw [hstep]
        refine ⟨r0, r1, rfl, rfl, rfl, rfl, rfl, hr0, hr1, ?_, ?_, ?_, ?_, hdel⟩
        · intro hq
          exact (List.mem_erase_of_ne (by simp)).mpr (hp0 hq)
        · intro hq
          exact (List.mem_erase_of_ne (by simp)).mpr (hpc0 hq)
        · intro hq
          exact (List.mem_erase_of_ne (by simp)).mpr (hp1 hq)
        · intro e2 he2
          exact hsub e2 (List.erase_subset _ _ he2)
      · -- the open event of the current socket 1
        rcases hr1 with rfl | rfl
        · have hstep : stepChoice
              ⟨[(0, ⟨chA, r0⟩), (1, ⟨chB, RS.conn⟩)], 2, some 1, some chB, some cbB, pd, dl⟩
              (Choice.proc (Ev.evOpen 1)) =
              ⟨[(0, ⟨chA, r0⟩), (1, ⟨chB, RS.opened⟩)], 2, some 1, some chB, some cbB,
                pd.erase (Ev.evOpen 1), dl⟩ := by
            simp [stepChoice, hmem, processEv, getSock, setRS]
          rw [hstep]
          refine ⟨r0, RS.opened, rfl, rfl, rfl, rfl, rfl, hr0, Or.inr rfl, ?_, ?_, ?_, ?_, hdel⟩
          · intro hq
            exact (List.mem_erase_of_ne (by decide)).mpr (hp0 hq)
          · intro hq
            exact (List.mem_erase_of_ne (by decide)).mpr (hpc0 hq)
          · intro hq; exact absurd hq (by decide)
          · intro e2 he2
            exact hsub e2 (List.erase_subset _ _ he2)
        · have hstep : stepChoice
              ⟨[(0, ⟨chA, r0⟩), (1, ⟨chB, RS.opened⟩)], 2, some 1, some chB, some cbB, pd, dl⟩
              (Choice.proc (Ev.evOpen 1)) =
              ⟨[(0, ⟨chA, r0⟩), (1, ⟨chB, RS.opened⟩)], 2, some 1, some chB, some cbB,
                pd.erase (Ev.evOpen 1), dl⟩ := by
            simp [stepChoice, hmem, processEv, getSock]
          rw [hstep]
          refine ⟨r0, RS.opened, rfl, rfl, rfl, rfl, rfl, hr0, Or.inr rfl, ?_, ?_, ?_, ?_, hdel⟩
          · intro hq
            exact (List.mem_erase_of_ne (by decide)).mpr (hp0 hq)
          · intro hq
            exact (List.mem_erase_of_ne (by decide)).mpr (hpc0 hq)
          · intro hq; exact absurd hq (by decide)
          · intro e2 he2
            exact hsub e2 (List.erase_subset _ _ he2)
      · -- the close-completion of socket 0 (channel no longer current)
        have hstep : stepChoice
            ⟨[(0, ⟨chA, r0⟩), (1, ⟨chB, r1⟩)], 2, some 1, some chB, some cbB, pd, dl⟩
            (Choice.proc (Ev.evClosed 0)) =
            ⟨[(0, ⟨chA, RS.closed⟩), (1, ⟨chB, r1⟩)], 2, some 1, some chB, some cbB,
              pd.erase (Ev.evClosed 0), dl⟩ := by
          simp [stepChoice, hmem, processEv, getSock, setRS, Ne.symm hne]
        rw [hstep]
        refine ⟨RS.closed, r1, rfl, rfl, rfl, rfl, rfl, Or.inr (Or.inr rfl), hr1,
          ?_, ?_, ?_, ?_, hdel⟩
        · intro hq; exact absurd hq (by decide)
        · intro hq; exact absurd hq (by decide)
        · intro hq
          exact (List.mem_erase_of_ne (by decide)).mpr (hp1 hq)
        · intro e2 he2
          exact hsub e2 (List.erase_subset _ _ he2)
    · have hstep : stepChoice
          ⟨[(0, ⟨chA, r0⟩), (1, ⟨chB, r1⟩)], 2, some 1, some chB, some cbB, pd, dl⟩
          (Choice.proc e) =
          ⟨[(0, ⟨chA, r0⟩), (1, ⟨chB, r1⟩)], 2, some 1, some chB, some cbB, pd, dl⟩ := by
        simp [stepChoice, hmem]
      rw [hstep]
      exact ⟨r0, r1, rfl, rfl, rfl, rfl, rfl, hr0, hr1, hp0, hpc0, hp1, hsub, hdel⟩

theorem c1_inv_run (chA chB : String) (cbB : Nat) (hne : chA ≠ chB)
    (cs : List Choice) :
    ∀ w : LocalWorld, C1Inv chA chB cbB w → C1Inv chA chB cbB (runChoices w cs) := by
  induction cs with
  | nil => intro w h; exact h
  | cons c cs ih =>
    intro w h
    exact ih (stepChoice w c) (c1_inv_step chA chB cbB hne w c h)

/-- Claim C1 (amended): in `LocalDataFeeds`, after `subscribe(A)` is
immediately followed by `subscribe(B)` while A's socket is still
connecting, every schedule of the pending events (in any order, with
messages allowed to arrive on any open socket at any time) settles with
exactly one open connection — socket 1, bound to channel B and still
referenced by the adapter — and no bar is ever delivered for channel A.
(The claim's universal "at most one live connection for every sequence of
subscribe calls" is refuted separately: an open connection superseded by a
later subscribe is never closed, because the implicit unsubscribe is
called with the new channel and its guard mismatches.) -/
theorem c1_subscribe_race (sA sB : String) (pA pB : Period) (cbA cbB : Nat)
    (cs : List Choice)
    (hne : localChannel sA pA ≠ localChannel sB pB)
    (hsettle : (runChoices (c1Start sA pA cbA sB pB cbB) cs).pending = []) :
    openSockIds (runChoices (c1Start sA pA cbA sB pB cbB) cs) = [1] ∧
    getSock (runChoices (c1Start sA pA cbA sB pB cbB) cs) 1 =
      some ⟨localChannel sB pB, RS.opened⟩ ∧
    (runChoices (c1Start sA pA cbA sB pB cbB) cs).ws = some 1 ∧
    (runChoices (c1Start sA pA cbA sB pB cbB) cs).currentChannel =
      some (localChannel sB pB) ∧
    ∀ d ∈ (runChoices (c1Start sA pA cbA sB pB cbB) cs).delivered,
      d.1 ≠ localChannel sA pA := by
  have hinv := c1_inv_run (localChannel sA pA) (localChannel sB pB) cbB hne cs
    (c1Start sA pA cbA sB pB cbB)
    (c1_inv_init sA sB pA pB cbA cbB hne)
  obtain ⟨r0, r1, hsocks, hnext, hws, hch, hcb, hr0, hr1, hp0, hpc0, hp1, hsub, hdel⟩ := hinv
  have hr0c : r0 = RS.closed := by
    rcases hr0 with rfl | rfl | rfl
    · exact absurd (hp0 rfl) (by simp [hsettle])
    · exact absurd (hpc0 rfl) (by simp [hsettle])
    · rfl
  have hr1o : r1 = RS.opened := by
    rcases hr1 with rfl | rfl
    · exact absurd (hp1 rfl) (by simp [hsettle])
    · rfl
  subst hr0c
  subst hr1o
  refine ⟨?_, ?_, hws, hch, ?_⟩
  · simp [openSockIds, hsocks]
  · simp [getSock, hsocks]
  · intro d hd
    rw [hdel d hd]
    exact Ne.symm hne

theorem c1_subscribe_race_witness :
    openSockIds (runChoices
      (c1Start "BTC-USD" ⟨1, "minute"⟩ 1 "ETH-USD" ⟨1, "minute"⟩ 2)
      [Choice.proc (Ev.evOpen 0), Choice.proc (Ev.evOpen 1),
        Choice.proc (Ev.evTimeout "ETH-USD_1m"), Choice.proc (Ev.evClosed 0),
        Choice.msg 1]) = [1] ∧
    ∀ d ∈ (runChoices
      (c1Start "BTC-USD" ⟨1, "minute"⟩ 1 "ETH-USD" ⟨1, "minute"⟩ 2)
      [Choice.proc (Ev.evOpen 0), Choice.proc (Ev.evOpen 1),
        Choice.proc (Ev.evTimeout "ETH-USD_1m"), Choice.proc (Ev.evClosed 0),
        Choice.msg 1]).delivered, d.1 ≠ localChannel "BTC-USD" ⟨1, "minute"⟩ := by
  have h := c1_subscribe_race "BTC-USD" "ETH-USD" ⟨1, "minute"⟩ ⟨1, "minute"⟩ 1 2
    [Choice.proc (Ev.evOpen 0), Choice.proc (Ev.evOpen 1),
      Choice.proc (Ev.evTimeout "ETH-USD_1m"), Choice.proc (Ev.evClosed 0),
      Choice.msg 1]
    (by decide) (by decide)
  exact ⟨h.1, h.2.2.2.2⟩
